import Mathlib

/-!
Verification development for a DOCX-to-PDF converter with Gurmukhi (Punjabi)
support.  The Python source (`app.py`) is shallowly embedded: pure helper
functions become Lean functions, the module-level font-registration dictionary
becomes an explicit `FontsRegistered` parameter, the story-building loop of
`convert_docx_to_pdf` becomes a fold over an explicit document model, and the
outcomes of the two external libraries (python-docx reading, reportlab build)
become explicit parameters.  Python floats are modelled as rationals (`Rat`):
every numeric operation performed by the relevant code is a comparison,
`max`, a division by 255, or a multiplication by 1.2, all exact here.
-/

/-! ## Small Python-semantics helpers -/

/-- Characters treated as whitespace by `str.strip()` (ASCII core:
space, tab, LF, VT, FF, CR).  Unicode whitespace is not needed by any claim. -/
def isSpaceC (c : Char) : Bool :=
  c.toNat = 32 || c.toNat = 9 || c.toNat = 10 || c.toNat = 11 ||
  c.toNat = 12 || c.toNat = 13

/-- Python truthiness of `s.strip()` being empty: every character is whitespace.
`pyBlank s = true` models `not s.strip()`. -/
def pyBlank (s : String) : Bool :=
  s.toList.all isSpaceC

/-- `needle` occurs as a contiguous substring starting at the head of `hay`. -/
def listStartsWith : List Char → List Char → Bool
  | [], _ => true
  | _ :: _, [] => false
  | a :: as, b :: bs => a == b && listStartsWith as bs

/-- `needle` occurs as a contiguous substring anywhere in `hay`. -/
def listHasSub (needle : List Char) : List Char → Bool
  | [] => listStartsWith needle []
  | c :: cs => listStartsWith needle (c :: cs) || listHasSub needle cs

/-- Python's `needle in hay` for strings (substring containment). -/
def pyIn (needle hay : String) : Bool :=
  listHasSub needle.toList hay.toList

/-! ## Script classifier (`is_gurmukhi_text`, app.py lines 91-96)

The Python argument may be `None` (falsy), so the input is an `Option String`.
`ord(char) in range(0x0A00, 0x0A7F)` is `0x0A00 ≤ ord(char) < 0x0A7F`. -/

def is_gurmukhi_text : Option String → Bool
  | none => false
  | some s =>
    if s = "" then false
    else s.toList.any fun c => decide (0x0A00 ≤ c.toNat) && decide (c.toNat < 0x0A7F)

/-! ## Font registration state (app.py lines 46-51)

The module-level `FONTS_REGISTERED` dictionary, passed explicitly. -/

structure FontsRegistered where
  gurmukhi_regular : Bool
  gurmukhi_bold : Bool
  helvetica_available : Bool
deriving DecidableEq, Repr

/-! ## Font resolver (`get_best_font`, app.py lines 138-167) -/

def get_best_font (fonts : FontsRegistered) (text : String)
    (is_bold is_italic : Bool) : String :=
  if is_gurmukhi_text (some text) then
    if is_italic then
      if is_bold then "Helvetica-BoldOblique" else "Helvetica-Oblique"
    else if is_bold && fonts.gurmukhi_bold then "NotoSansGurmukhi-Bold"
    else if fonts.gurmukhi_regular then "NotoSansGurmukhi"
    else if is_bold then "Helvetica-Bold" else "Helvetica"
  else
    if is_bold && is_italic then "Helvetica-BoldOblique"
    else if is_bold then "Helvetica-Bold"
    else if is_italic then "Helvetica-Oblique"
    else "Helvetica"

/-! ## Theorems for claims C1 and C4 -/

/-- Claim C4: the script classifier returns true iff some character of the
input has a code point in the inclusive range 0x0A00-0x0A7E; `None` and the
empty string yield false, and any ASCII-only string yields false. -/
theorem C4_script_classifier (s : String) :
    (is_gurmukhi_text (some s) = true ↔
      ∃ c ∈ s.toList, 0x0A00 ≤ c.toNat ∧ c.toNat ≤ 0x0A7E)
    ∧ is_gurmukhi_text none = false
    ∧ is_gurmukhi_text (some "") = false
    ∧ ((∀ c ∈ s.toList, c.toNat ≤ 0x7F) → is_gurmukhi_text (some s) = false) := by
  refine ⟨?_, rfl, rfl, ?_⟩
  · by_cases h : s = ""
    · subst h
      simp [is_gurmukhi_text]
    · simp only [is_gurmukhi_text, if_neg h, List.any_eq_true, Bool.and_eq_true,
        decide_eq_true_eq]
      constructor
      · rintro ⟨c, hc, h1, h2⟩
        exact ⟨c, hc, h1, by omega⟩
      · rintro ⟨c, hc, h1, h2⟩
        exact ⟨c, hc, h1, by omega⟩
  · intro hascii
    by_cases h : s = ""
    · subst h; rfl
    · simp only [is_gurmukhi_text, if_neg h, List.any_eq_false, Bool.and_eq_true,
        decide_eq_true_eq, not_and]
      intro c hc h1
      have := hascii c hc
      omega

/-- Witness for C4 at concrete inputs. -/
theorem C4_script_classifier_witness :
    (∀ c ∈ "abc".toList, c.toNat ≤ 0x7F) ∧ is_gurmukhi_text (some "abc") = false :=
  ⟨by decide, (C4_script_classifier "abc").2.2.2 (by decide)⟩

/-- Claim C1: for Gurmukhi text with italic requested, the resolver returns the
Latin italic fallback regardless of registration state; for non-italic Gurmukhi
text it returns the Gurmukhi bold variant when bold is requested and the bold
font is registered, else the Gurmukhi regular variant when the regular font is
registered, else the Latin bold/regular fallback per the bold flag. -/
theorem C1_font_resolution (fonts : FontsRegistered) (text : String)
    (is_bold is_italic : Bool) (hg : is_gurmukhi_text (some text) = true) :
    (is_italic = true →
      get_best_font fonts text is_bold is_italic =
        if is_bold then "Helvetica-BoldOblique" else "Helvetica-Oblique")
    ∧ (is_italic = false →
      get_best_font fonts text is_bold is_italic =
        if is_bold && fonts.gurmukhi_bold then "NotoSansGurmukhi-Bold"
        else if fonts.gurmukhi_regular then "NotoSansGurmukhi"
        else if is_bold then "Helvetica-Bold" else "Helvetica") := by
  constructor
  · intro hi
    subst hi
    simp [get_best_font, hg]
  · intro hi
    subst hi
    simp [get_best_font, hg]

/-- Witness for C1: the spec's own example, `resolve("ਸਤ ਸ੍ਰੀ ਅਕਾਲ", bold=false,
italic=true)`, with both Gurmukhi fonts registered, still yields the Latin
italic fallback. -/
theorem C1_font_resolution_witness :
    is_gurmukhi_text (some "ਸਤ ਸ੍ਰੀ ਅਕਾਲ") = true ∧
    get_best_font ⟨true, true, true⟩ "ਸਤ ਸ੍ਰੀ ਅਕਾਲ" false true = "Helvetica-Oblique" :=
  ⟨by decide, by
    have h := (C1_font_resolution ⟨true, true, true⟩ "ਸਤ ਸ੍ਰੀ ਅਕਾਲ" false true
      (by decide)).1 rfl
    simpa using h⟩

/-! ## Run model and formatting extractor (`get_text_formatting`, app.py 98-136)

A "run-like object" is duck-typed in Python.  An attribute may be absent
(`hasattr` is false; a direct access raises `AttributeError`), may be `None`,
or may carry a value, so each attribute is modelled as a doubly-nested
`Option`: `none` = attribute absent, `some none` = attribute is `None`,
`some (some v)` = attribute has value `v`.  `hasattr(x, a)` on `x = None`
returns false (the access raises inside `hasattr`), while a direct
`x.a` on `x = None` raises.  The color's `rgb` value is modelled as an
int-like `Nat` (formatted by `f"#{rgb_val:06x}"`). -/

/-- A `font.size` object: `truthy` models its Python truthiness, `pt` its
`pt` attribute (absent when `none`). -/
structure SizeObj where
  truthy : Bool
  pt : Option Rat
deriving DecidableEq, Repr

/-- A `font.color` object; `rgb` is absent / `None` / an int-like value. -/
structure ColorObj where
  rgb : Option (Option Nat)
deriving DecidableEq, Repr

/-- A `run.font` object with the attributes the extractor reads. -/
structure FontObj where
  bold : Option (Option Bool)
  italic : Option (Option Bool)
  underline : Option (Option Bool)
  size : Option (Option SizeObj)
  color : Option (Option ColorObj)
deriving DecidableEq, Repr

/-- A run-like object: its text plus the attributes the extractor reads. -/
structure RunLike where
  text : String
  bold : Option (Option Bool)
  italic : Option (Option Bool)
  underline : Option (Option Bool)
  font : Option (Option FontObj)
deriving DecidableEq, Repr

/-- The extracted formatting record. -/
structure Formatting where
  bold : Bool
  italic : Bool
  underline : Bool
  size : Rat
  color : String
deriving DecidableEq, Repr

def defaultFormatting : Formatting :=
  { bold := false, italic := false, underline := false, size := 12, color := "#000000" }

/-- One flag check, e.g. for bold (app.py lines 110-111):
`(hasattr(run, 'bold') and run.bold is True) or (hasattr(run, 'font') and
hasattr(run.font, 'bold') and run.font.bold is True)`.  No access here can
raise: every dotted access is guarded by `hasattr`, and `hasattr(None, a)`
is false. -/
def flagCheck (direct : Option (Option Bool)) (font : Option (Option FontObj))
    (sel : FontObj → Option (Option Bool)) : Bool :=
  direct == some (some true) ||
    (match font with
     | some (some fo) => sel fo == some (some true)
     | _ => false)

/-- The three flag checks of the `try` body, in source order (no exceptions
possible up to this point). -/
def extractFlags (run : RunLike) : Formatting :=
  let f0 := defaultFormatting
  let f1 := if flagCheck run.bold run.font FontObj.bold then { f0 with bold := true } else f0
  let f2 := if flagCheck run.italic run.font FontObj.italic then { f1 with italic := true } else f1
  if flagCheck run.underline run.font FontObj.underline then { f2 with underline := true } else f2

/-- The size line (app.py 125-126):
`if hasattr(run, 'font') and run.font.size and hasattr(run.font.size, 'pt')`.
`run.font.size` raises (`Except.error` carrying the formatting state at the
raise) when `run.font` is `None` or has no `size` attribute. -/
def sizeStep (run : RunLike) (f : Formatting) : Except Formatting Formatting :=
  match run.font with
  | none => .ok f
  | some none => .error f
  | some (some fo) =>
    match fo.size with
    | none => .error f
    | some none => .ok f
    | some (some s) =>
      if s.truthy then
        match s.pt with
        | some v => .ok { f with size := v }
        | none => .ok f
      else .ok f

/-- Python's `f"#{n:06x}"`: lowercase hex, zero-padded to at least six digits
(`Nat.toDigits 16` produces lowercase hex digits). -/
def pyFormatHex06 (n : Nat) : String :=
  let ds := Nat.toDigits 16 n
  "#" ++ String.mk (List.replicate (6 - ds.length) '0' ++ ds)

/-- The color lines (app.py 129-131):
`if hasattr(run, 'font') and run.font.color and hasattr(run.font.color, 'rgb')
and run.font.color.rgb: formatting['color'] = f"#{run.font.color.rgb:06x}"`.
`run.font.color` raises when `run.font` is `None` or lacks the attribute. -/
def colorStep (run : RunLike) (f : Formatting) : Except Formatting Formatting :=
  match run.font with
  | none => .ok f
  | some none => .error f
  | some (some fo) =>
    match fo.color with
    | none => .error f
    | some none => .ok f
    | some (some co) =>
      match co.rgb with
      | none => .ok f
      | some none => .ok f
      | some (some v) =>
        if v ≠ 0 then .ok { f with color := pyFormatHex06 v } else .ok f

/-- `get_text_formatting` (app.py 98-136): run the `try` body; the single
`except Exception: pass` returns whatever the `formatting` dict holds at the
moment of the raise. -/
def get_text_formatting (run : RunLike) : Formatting :=
  match sizeStep run (extractFlags run) with
  | .error f => f
  | .ok f =>
    match colorStep run f with
    | .error f2 => f2
    | .ok f2 => f2

/-- A run-like object exposing none of the read attributes. -/
def bareRun : RunLike :=
  { text := "", bold := none, italic := none, underline := none, font := none }

/-- A run-like object whose `bold` is `True` but whose `font` is `None`:
the flag checks succeed, then `run.font.size` raises `AttributeError`. -/
def boldNoneFontRun : RunLike :=
  { text := "x", bold := some (some true), italic := none, underline := none,
    font := some none }

/-- Counterexample to claim C5 as stated: for `boldNoneFontRun` an exception is
raised during extraction (at the `run.font.size` access) and is swallowed, but
the extractor does NOT return the defaults: the already-extracted bold flag is
kept. -/
theorem C5_counterexample :
    (sizeStep boldNoneFontRun (extractFlags boldNoneFontRun) =
      .error (extractFlags boldNoneFontRun))
    ∧ get_text_formatting boldNoneFontRun ≠ defaultFormatting
    ∧ get_text_formatting boldNoneFontRun =
      { bold := true, italic := false, underline := false, size := 12, color := "#000000" } := by
  refine ⟨rfl, ?_, rfl⟩
  decide

/-- Claim C5 as amended: the extractor is a total function (never raises); a
run-like object exposing no formatting attributes at all yields exactly the
defaults; and when an exception is raised at the size step or the color step it
is swallowed and the formatting extracted up to that point is returned
(defaults for every field not yet extracted), rather than the full default
record. -/
theorem C5_extractor_amended (run : RunLike) :
    (run.bold = none → run.italic = none → run.underline = none → run.font = none →
      get_text_formatting run = defaultFormatting)
    ∧ (∀ f, sizeStep run f = .error f →
        get_text_formatting run = extractFlags run)
    ∧ (∀ f, sizeStep run f = .ok f → colorStep run f = .error f →
        get_text_formatting run =
          match sizeStep run (extractFlags run) with
          | .error g => g
          | .ok g => g) := by
  refine ⟨?_, ?_, ?_⟩
  · intro h1 h2 h3 h4
    simp [get_text_formatting, sizeStep, colorStep, extractFlags, flagCheck,
      h1, h2, h3, h4, defaultFormatting]
  · intro f hf
    have hraise : ∀ g : Formatting, sizeStep run g = .error g := by
      intro g
      cases hfont : run.font with
      | none => simp [sizeStep, hfont] at hf
      | some o =>
        cases o with
        | none => simp [sizeStep, hfont]
        | some fo =>
          cases hsz : fo.size with
          | none => simp [sizeStep, hfont, hsz]
          | some so =>
            exfalso
            cases so with
            | none => simp [sizeStep, hfont, hsz] at hf
            | some s =>
              by_cases ht : s.truthy = true
              · cases hpt : s.pt <;> simp [sizeStep, hfont, hsz, ht, hpt] at hf
              · simp [sizeStep, hfont, hsz, ht] at hf
    simp [get_text_formatting, hraise (extractFlags run)]
  · intro f _ hc
    have hraise : ∀ g : Formatting, colorStep run g = .error g := by
      intro g
      cases hfont : run.font with
      | none => simp [colorStep, hfont] at hc
      | some o =>
        cases o with
        | none => simp [colorStep, hfont]
        | some fo =>
          cases hco : fo.color with
          | none => simp [colorStep, hfont, hco]
          | some co =>
            exfalso
            cases co with
            | none => simp [colorStep, hfont, hco] at hc
            | some c =>
              cases hrgb : c.rgb with
              | none => simp [colorStep, hfont, hco, hrgb] at hc
              | some r =>
                cases r with
                | none => simp [colorStep, hfont, hco, hrgb] at hc
                | some v =>
                  by_cases hv : v = 0 <;>
                    simp [colorStep, hfont, hco, hrgb, hv] at hc
    cases hs : sizeStep run (extractFlags run) with
    | error g => simp [get_text_formatting, hs]
    | ok g => simp [get_text_formatting, hs, hraise g]

/-- Witness for C5 (amended): the bare run yields exactly the defaults, and for
`boldNoneFontRun` the swallowed exception leaves the partially extracted
record. -/
theorem C5_extractor_amended_witness :
    get_text_formatting bareRun = defaultFormatting ∧
    get_text_formatting boldNoneFontRun = extractFlags boldNoneFontRun :=
  ⟨(C5_extractor_amended bareRun).1 rfl rfl rfl rfl,
   (C5_extractor_amended boldNoneFontRun).2.1 (extractFlags boldNoneFontRun) rfl⟩

/-! ## Hex-to-color conversion (`hex_to_reportlab_color`, app.py 181-191)

The Python body slices `hex_color[0:2]`, `[2:4]`, `[4:6]` (after dropping a
leading `#`) and applies `int(_, 16)` to each; the bare `except` maps any
parse failure to `colors.black`.  `int(s, 16)` accepts surrounding whitespace,
one optional sign, an optional `0x`/`0X` prefix, and hex digits with
underscores strictly between digits; this is modelled on `List Char` (with
character tests written on code points so that `'+'` is 43, `'-'` 45,
`'0'` 48, `'x'` 120, `'X'` 88, `'_'` 95, `'#'` 35). -/

/-- ASCII hexadecimal digit. -/
def isHexDigitC (c : Char) : Bool :=
  (decide (48 ≤ c.toNat) && decide (c.toNat ≤ 57)) ||
  (decide (97 ≤ c.toNat) && decide (c.toNat ≤ 102)) ||
  (decide (65 ≤ c.toNat) && decide (c.toNat ≤ 70))

/-- Value of a hexadecimal digit. -/
def hexVal (c : Char) : Nat :=
  if c.toNat ≤ 57 then c.toNat - 48
  else if c.toNat ≤ 70 then c.toNat - 55
  else c.toNat - 87

/-- Strip leading and trailing whitespace, as `int()` does. -/
def trimWs (l : List Char) : List Char :=
  ((l.dropWhile isSpaceC).reverse.dropWhile isSpaceC).reverse

/-- Strip one optional sign, returning the sign factor. -/
def stripSignL (l : List Char) : Int × List Char :=
  match l with
  | c :: rest =>
    if c.toNat = 43 then (1, rest)
    else if c.toNat = 45 then (-1, rest)
    else (1, c :: rest)
  | [] => (1, [])

/-- Strip an optional `0x`/`0X` prefix (and one underscore right after it). -/
def stripHexPre (l : List Char) : List Char :=
  match l with
  | a :: b :: rest =>
    if a.toNat = 48 ∧ (b.toNat = 120 ∨ b.toNat = 88) then
      match rest with
      | u :: r => if u.toNat = 95 then r else rest
      | [] => rest
    else a :: b :: rest
  | _ => l

/-- The digit part accepted by `int(_, 16)`: nonempty, first and last are hex
digits, every character is a hex digit or `_`, and no two adjacent `_`. -/
def hexDigitsOk (l : List Char) : Bool :=
  !l.isEmpty &&
  isHexDigitC (l.headD '0') &&
  isHexDigitC (l.getLastD '0') &&
  l.all (fun c => isHexDigitC c || decide (c.toNat = 95)) &&
  ((l.zip l.tail).all fun p => !(decide (p.1.toNat = 95) && decide (p.2.toNat = 95)))

/-- Accumulate the value of a list of hex digits. -/
def hexValL (l : List Char) : Nat :=
  l.foldl (fun acc c => 16 * acc + hexVal c) 0

/-- Python's `int(s, 16)` on a character list: `none` models the raised
`ValueError`. -/
def pyIntHexL (l : List Char) : Option Int :=
  let t := trimWs l
  let p := stripSignL t
  let d := stripHexPre p.2
  if hexDigitsOk d then some (p.1 * (hexValL (d.filter fun c => !decide (c.toNat = 95)) : Nat))
  else none

/-- A reportlab `colors.Color` value (r, g, b components). -/
structure RLColor where
  r : Rat
  g : Rat
  b : Rat
deriving DecidableEq, Repr

/-- `colors.black`. -/
def blackColor : RLColor := ⟨0, 0, 0⟩

/-- `colors.lightgrey` (0xd3d3d3). -/
def lightgreyColor : RLColor := ⟨211 / 255, 211 / 255, 211 / 255⟩

/-- Drop a leading `#` (Python `if hex_color.startswith('#'): hex_color =
hex_color[1:]`). -/
def stripHash (l : List Char) : List Char :=
  match l with
  | c :: rest => if c.toNat = 35 then rest else c :: rest
  | [] => []

/-- `hex_to_reportlab_color` (app.py 181-191). -/
def hex_to_reportlab_color (hex_color : String) : RLColor :=
  let h := stripHash hex_color.toList
  match pyIntHexL (h.take 2), pyIntHexL ((h.drop 2).take 2), pyIntHexL ((h.drop 4).take 2) with
  | some rv, some gv, some bv => ⟨(rv : Rat) / 255, (gv : Rat) / 255, (bv : Rat) / 255⟩
  | _, _, _ => blackColor

/-- Value of a two-hex-digit pair. -/
def hexPair (a b : Char) : Nat := 16 * hexVal a + hexVal b

/-- The claim's notion of a well-formed color string: exactly six hexadecimal
digits, optionally preceded by a single `#` (stated from the claim's words, to
be compared with the source function). -/
def specWellFormedHex6 (s : String) : Bool :=
  (s.toList.length = 6 && s.toList.all isHexDigitC) ||
  (s.toList.length = 7 && decide ((s.toList.headD ' ').toNat = 35) &&
    s.toList.tail.all isHexDigitC)

lemma hex_not_space {c : Char} (h : isHexDigitC c = true) : isSpaceC c = false := by
  simp only [isHexDigitC, Bool.or_eq_true, Bool.and_eq_true, decide_eq_true_eq] at h
  simp only [isSpaceC, Bool.or_eq_false_iff, decide_eq_false_iff_not]
  omega

lemma intOfNat_eq (n : Nat) : Int.ofNat n = (n : Int) := rfl

lemma pyIntHexL_pair {a b : Char} (ha : isHexDigitC a = true)
    (hb : isHexDigitC b = true) :
    pyIntHexL [a, b] = some (Int.ofNat (hexPair a b)) := by
  have hna : a.toNat ≠ 43 ∧ a.toNat ≠ 45 ∧ ¬(a.toNat = 48 ∧ (b.toNat = 120 ∨ b.toNat = 88)) := by
    simp only [isHexDigitC, Bool.or_eq_true, Bool.and_eq_true, decide_eq_true_eq] at ha hb
    omega
  have htrim : trimWs [a, b] = [a, b] := by
    simp [trimWs, List.dropWhile, hex_not_space ha, hex_not_space hb]
  have hsign : stripSignL [a, b] = (1, [a, b]) := by
    simp [stripSignL, hna.1, hna.2.1]
  have hpre : stripHexPre [a, b] = [a, b] := by
    simp [stripHexPre, hna.2.2]
  have hok : hexDigitsOk [a, b] = true := by
    have h95a : ¬(a.toNat = 95) := by
      simp only [isHexDigitC, Bool.or_eq_true, Bool.and_eq_true, decide_eq_true_eq] at ha
      omega
    have h95b : ¬(b.toNat = 95) := by
      simp only [isHexDigitC, Bool.or_eq_true, Bool.and_eq_true, decide_eq_true_eq] at hb
      omega
    simp [hexDigitsOk, ha, hb, h95a, h95b]
  have h95a : (!decide (a.toNat = 95)) = true := by
    simp only [isHexDigitC, Bool.or_eq_true, Bool.and_eq_true, decide_eq_true_eq] at ha
    simp only [Bool.not_eq_true', decide_eq_false_iff_not]
    omega
  have h95b : (!decide (b.toNat = 95)) = true := by
    simp only [isHexDigitC, Bool.or_eq_true, Bool.and_eq_true, decide_eq_true_eq] at hb
    simp only [Bool.not_eq_true', decide_eq_false_iff_not]
    omega
  rw [pyIntHexL]
  simp only [htrim, hsign, hpre, hok, if_true]
  simp only [List.filter, h95a, h95b, hexValL, List.foldl, hexPair]
  congr 1
  simp only [intOfNat_eq]
  push_cast
  ring

lemma castIntOfNat (n : Nat) : ((Int.ofNat n : Int) : Rat) = (n : Rat) :=
  Int.cast_natCast n

/-- Counterexample to claim C10 as stated: `"12345678"` is not a well-formed
six-hex-digit string, yet the conversion returns the (non-black) color built
from the first three character pairs, not black. -/
theorem C10_counterexample :
    specWellFormedHex6 "12345678" = false
    ∧ hex_to_reportlab_color "12345678" ≠ blackColor
    ∧ hex_to_reportlab_color "12345678" = ⟨18 / 255, 52 / 255, 86 / 255⟩ := by
  have e1 : pyIntHexL (List.take 2 (stripHash "12345678".toList)) = some (Int.ofNat 18) := by
    decide
  have e2 : pyIntHexL (List.take 2 (List.drop 2 (stripHash "12345678".toList))) =
      some (Int.ofNat 52) := by decide
  have e3 : pyIntHexL (List.take 2 (List.drop 4 (stripHash "12345678".toList))) =
      some (Int.ofNat 86) := by decide
  have he : hex_to_reportlab_color "12345678" = ⟨18 / 255, 52 / 255, 86 / 255⟩ := by
    simp only [hex_to_reportlab_color, e1, e2, e3]
    norm_num
  refine ⟨by decide, ?_, he⟩
  rw [he, blackColor]
  intro hc
  have hr := congrArg RLColor.r hc
  norm_num at hr

/-- Claim C10 as amended: the conversion is a total function (the bare
`except` catches every parse failure) and a well-formed six-hex-digit string,
with or without a leading `#`, maps to the corresponding RGB color; but black
is returned exactly when one of the three two-character slices fails to parse
as a Python hexadecimal integer, so malformed input with parseable first six
characters (e.g. `"12345678"`) yields a non-black color. -/
theorem C10_hex_color_amended (c0 c1 c2 c3 c4 c5 : Char)
    (h0 : isHexDigitC c0 = true) (h1 : isHexDigitC c1 = true)
    (h2 : isHexDigitC c2 = true) (h3 : isHexDigitC c3 = true)
    (h4 : isHexDigitC c4 = true) (h5 : isHexDigitC c5 = true) :
    hex_to_reportlab_color (String.mk [c0, c1, c2, c3, c4, c5]) =
      ⟨(hexPair c0 c1 : Rat) / 255, (hexPair c2 c3 : Rat) / 255, (hexPair c4 c5 : Rat) / 255⟩
    ∧ hex_to_reportlab_color (String.mk ('#' :: [c0, c1, c2, c3, c4, c5])) =
      ⟨(hexPair c0 c1 : Rat) / 255, (hexPair c2 c3 : Rat) / 255, (hexPair c4 c5 : Rat) / 255⟩
    ∧ hex_to_reportlab_color "12345678" = ⟨18 / 255, 52 / 255, 86 / 255⟩ := by
  have t1 : List.take 2 [c0, c1, c2, c3, c4, c5] = [c0, c1] := rfl
  have t2 : List.take 2 (List.drop 2 [c0, c1, c2, c3, c4, c5]) = [c2, c3] := rfl
  have t3 : List.take 2 (List.drop 4 [c0, c1, c2, c3, c4, c5]) = [c4, c5] := rfl
  have e1 : pyIntHexL (List.take 2 (stripHash "12345678".toList)) = some (Int.ofNat 18) := by
    decide
  have e2 : pyIntHexL (List.take 2 (List.drop 2 (stripHash "12345678".toList))) =
      some (Int.ofNat 52) := by decide
  have e3 : pyIntHexL (List.take 2 (List.drop 4 (stripHash "12345678".toList))) =
      some (Int.ofNat 86) := by decide
  refine ⟨?_, ?_, ?_⟩
  · have hh : stripHash (String.mk [c0, c1, c2, c3, c4, c5]).toList =
        [c0, c1, c2, c3, c4, c5] := by
      have hn : ¬(c0.toNat = 35) := by
        simp only [isHexDigitC, Bool.or_eq_true, Bool.and_eq_true, decide_eq_true_eq] at h0
        omega
      show stripHash [c0, c1, c2, c3, c4, c5] = _
      simp [stripHash, hn]
    simp only [hex_to_reportlab_color, hh, t1, t2, t3,
      pyIntHexL_pair h0 h1, pyIntHexL_pair h2 h3, pyIntHexL_pair h4 h5, castIntOfNat]
  · have hh : stripHash (String.mk ('#' :: [c0, c1, c2, c3, c4, c5])).toList =
        [c0, c1, c2, c3, c4, c5] := by
      show stripHash ('#' :: [c0, c1, c2, c3, c4, c5]) = _
      simp [stripHash]
    simp only [hex_to_reportlab_color, hh, t1, t2, t3,
      pyIntHexL_pair h0 h1, pyIntHexL_pair h2 h3, pyIntHexL_pair h4 h5, castIntOfNat]
  · simp only [hex_to_reportlab_color, e1, e2, e3]
    norm_num

/-- Witness for C10 (amended), at the concrete well-formed input `"ff0080"`. -/
theorem C10_hex_color_amended_witness :
    hex_to_reportlab_color (String.mk ['f', 'f', '0', '0', '8', '0']) =
      ⟨(hexPair 'f' 'f' : Rat) / 255, (hexPair '0' '0' : Rat) / 255,
       (hexPair '8' '0' : Rat) / 255⟩ :=
  (C10_hex_color_amended 'f' 'f' '0' '0' '8' '0' (by decide) (by decide)
    (by decide) (by decide) (by decide) (by decide)).1


/-! ## Document model (python-docx side)

A paragraph carries runs, a style (whose `.name` is taken, `None` style giving
a default), and an alignment enum value (`None` or a small int).  Its `text`
attribute is, per python-docx, the concatenation of its runs' texts. -/

structure DocParagraph where
  runs : List RunLike
  style : Option String
  alignment : Option Int
deriving DecidableEq, Repr

/-- `''.join(run.text for run in paragraph.runs)`. -/
def catTexts : List RunLike → String
  | [] => ""
  | r :: rs => r.text ++ catTexts rs

/-- `paragraph.text`. -/
def DocParagraph.text (p : DocParagraph) : String :=
  catTexts p.runs

/-- A table cell contains paragraphs; a table is rows of cells. -/
structure TableCell where
  paragraphs : List DocParagraph
deriving DecidableEq, Repr

structure DocTable where
  rows : List (List TableCell)
deriving DecidableEq, Repr

/-- The whole document, as the conversion reads it. -/
structure DocModel where
  paragraphs : List DocParagraph
  tables : List DocTable
deriving DecidableEq, Repr

/-! ## Paragraph path of the layout builder (app.py 264-407) -/

/-- reportlab alignment constants. -/
def TA_LEFT : Nat := 0
def TA_CENTER : Nat := 1
def TA_RIGHT : Nat := 2
def TA_JUSTIFY : Nat := 4

/-- `get_paragraph_alignment` (app.py 169-179): map the Word enum int through
`alignment_map` with `TA_LEFT` default. -/
def get_paragraph_alignment (p : DocParagraph) : Nat :=
  match p.alignment with
  | none => TA_LEFT
  | some a =>
    if a = 0 then TA_LEFT
    else if a = 1 then TA_CENTER
    else if a = 2 then TA_RIGHT
    else if a = 3 then TA_JUSTIFY
    else TA_LEFT

/-- Base font size from the style name (app.py 272-281): substring checks in
source order. -/
def base_size_of (style_name : String) : Rat :=
  if pyIn "Heading 1" style_name then 18
  else if pyIn "Heading 2" style_name then 16
  else if pyIn "Heading 3" style_name then 14
  else if pyIn "Title" style_name then 20
  else 12

/-- List prefix (app.py 284-293).  `priorParas` is `doc.paragraphs[:para_idx]`;
the numbered count tests `'List Number' in (p.style.name if p.style else '')`. -/
def listPrefixOf (priorParas : List DocParagraph) (style_name : String) : String :=
  if pyIn "List" style_name then
    if pyIn "Bullet" style_name then "● "
    else if pyIn "Number" style_name then
      toString ((priorParas.filter fun q => pyIn "List Number" (q.style.getD "")).length + 1)
        ++ ". "
    else ""
  else ""

/-- `runs_with_text = [run for run in paragraph.runs if run.text.strip()]`. -/
def runs_with_text (p : DocParagraph) : List RunLike :=
  p.runs.filter fun r => !pyBlank r.text

/-- The uniformity scan (app.py 300-310): every later run matches the first
run's bold/italic/underline flags. -/
def uniformFormatting : List RunLike → Bool
  | [] => true
  | r0 :: rest =>
    rest.all fun r =>
      ((get_text_formatting r).bold == (get_text_formatting r0).bold) &&
      ((get_text_formatting r).italic == (get_text_formatting r0).italic) &&
      ((get_text_formatting r).underline == (get_text_formatting r0).underline)

/-- An element appended to the reportlab story. -/
inductive TableCmd
  | alignLeft
  | valignTop
  | fontNameAll (font : String)
  | fontSizeAll (size : Rat)
  | grid (w : Rat) (color : RLColor)
  | leftPad (v : Rat)
  | rightPad (v : Rat)
  | topPad (v : Rat)
  | bottomPad (v : Rat)
  | headerBackground (color : RLColor)
  | headerFontName (font : String)
  | headerFontSize (size : Rat)
deriving DecidableEq, Repr

inductive StoryElem
  | paragraphBlock (text : String) (font : String) (fontSize : Rat) (alignment : Nat)
      (textColor : RLColor) (spaceAfter : Rat) (leftIndent : Rat) (leading : Rat)
  | spacer (width height : Rat)
  | tableBlock (data : List (List String)) (cmds : List TableCmd)
deriving DecidableEq, Repr

/-- One styled block of the mixed-formatting path (app.py 357-392), for a
single run; `pre` is the list prefix given to the first emitted run only. -/
def mixedRunElem (fonts : FontsRegistered) (base_size : Rat) (alignment : Nat)
    (is_list_item : Bool) (pre : String) (r : RunLike) : StoryElem :=
  let run_fmt := get_text_formatting r
  let font_name := get_best_font fonts r.text run_fmt.bold run_fmt.italic
  let text_color := hex_to_reportlab_color run_fmt.color
  let run_text := pre ++ r.text
  let space_after : Rat := if is_list_item then 1 else 2
  let left_indent : Rat := if is_list_item then 20 else 0
  let fsize := max run_fmt.size base_size
  let text_content := if run_fmt.underline then "<u>" ++ run_text ++ "</u>" else run_text
  .paragraphBlock text_content font_name fsize alignment text_color space_after
    left_indent (fsize * (6 / 5))

/-- The per-paragraph body of the story loop (app.py 264-407).  `priorParas`
is `doc.paragraphs[:para_idx]`.  Note: the inner `if not run.text.strip():
continue` of the mixed branch never fires, because `runs_with_text` is already
filtered on exactly that condition; and `first_run_processed` becomes true at
the first (never-skipped) iteration, so only the first emitted run carries the
list prefix. -/
def paraElems (fonts : FontsRegistered) (priorParas : List DocParagraph)
    (p : DocParagraph) : List StoryElem :=
  if pyBlank p.text then [] else
  let alignment := get_paragraph_alignment p
  let style_name := p.style.getD "Normal"
  let base_size := base_size_of style_name
  let is_list_item := pyIn "List" style_name
  let lpre := listPrefixOf priorParas style_name
  match runs_with_text p with
  | [] => []
  | r0 :: rest =>
    let first_fmt := get_text_formatting r0
    if uniformFormatting (r0 :: rest) then
      let font_name := get_best_font fonts p.text first_fmt.bold first_fmt.italic
      let text_color := hex_to_reportlab_color first_fmt.color
      let space_after : Rat := if is_list_item then 3 else 6
      let left_indent : Rat := if is_list_item then 20 else 0
      let fsize := max first_fmt.size base_size
      let tc0 := lpre ++ p.text
      let text_content := if first_fmt.underline then "<u>" ++ tc0 ++ "</u>" else tc0
      [.paragraphBlock text_content font_name fsize alignment text_color space_after
        left_indent (fsize * (6 / 5))]
    else
      ([mixedRunElem fonts base_size alignment is_list_item
          (if is_list_item then lpre else "") r0]
        ++ rest.map (mixedRunElem fonts base_size alignment is_list_item ""))
        ++ (if !is_list_item then [.spacer 1 6] else [])

/-! ## Table path of the layout builder (app.py 410-486) -/

/-- Python's `s.strip()` (both-ends whitespace strip). -/
def pyStrip (s : String) : String :=
  String.mk (((s.toList.dropWhile isSpaceC).reverse.dropWhile isSpaceC).reverse)

/-- Decoration tags for one table-cell run (app.py 439-445): underline
innermost, then italic, then bold outermost. -/
def taggedRunText (r : RunLike) : String :=
  let fmt := get_text_formatting r
  let t1 := if fmt.underline then "<u>" ++ r.text ++ "</u>" else r.text
  let t2 := if fmt.italic then "<i>" ++ t1 ++ "</i>" else t1
  if fmt.bold then "<b>" ++ t2 ++ "</b>" else t2

/-- `has_formatting` for a cell paragraph (app.py 423-429): some non-blank run
with a bold/italic/underline flag. -/
def paraHasFormatting (p : DocParagraph) : Bool :=
  p.runs.any fun r =>
    !pyBlank r.text &&
      (let fmt := get_text_formatting r
       fmt.bold || fmt.italic || fmt.underline)

/-- Content contributed to a cell by one of its paragraphs (plus the trailing
space the source appends). -/
def cellParaContent (p : DocParagraph) : String :=
  if pyBlank p.text then ""
  else if paraHasFormatting p then
    (String.join ((p.runs.filter fun r => !pyBlank r.text).map taggedRunText)) ++ " "
  else p.text ++ " "

/-- A cell's grid string (app.py 419-453): concatenated paragraph contents,
stripped at the end. -/
def cellContent (cell : TableCell) : String :=
  pyStrip (String.join (cell.paragraphs.map cellParaContent))

/-- The table style command list (app.py 461-479); the header commands are
appended exactly when the grid has more than one row. -/
def tableStyleCmds (fonts : FontsRegistered) (nrows : Nat) : List TableCmd :=
  [.alignLeft, .valignTop,
   .fontNameAll (if fonts.gurmukhi_regular then "NotoSansGurmukhi" else "Helvetica"),
   .fontSizeAll 11,
   .grid (1 / 2) blackColor,
   .leftPad 8, .rightPad 8, .topPad 6, .bottomPad 6]
  ++ (if 1 < nrows then
      [.headerBackground lightgreyColor,
       .headerFontName (if fonts.gurmukhi_bold then "NotoSansGurmukhi-Bold"
         else "Helvetica-Bold"),
       .headerFontSize 12]
      else [])

/-- Story elements contributed by one table (app.py 410-486): skip a rowless
table, build the grid, append the styled table block and a spacer. -/
def tableElems (fonts : FontsRegistered) (t : DocTable) : List StoryElem :=
  if t.rows.isEmpty then []
  else
    let table_data := t.rows.map fun row => row.map cellContent
    if table_data.isEmpty then []
    else [.tableBlock table_data (tableStyleCmds fonts table_data.length),
          .spacer 1 12]

/-! ## Story assembly (the two sequential loops of app.py 264-486),
modelled as the source writes it: a story accumulator threaded through the
paragraph loop and then the table loop. -/

def parasLoopAcc (fonts : FontsRegistered) (allParas : List DocParagraph) :
    Nat → List DocParagraph → List StoryElem → List StoryElem
  | _, [], story => story
  | i, p :: rest, story =>
    parasLoopAcc fonts allParas (i + 1) rest (story ++ paraElems fonts (allParas.take i) p)

def tablesLoopAcc (fonts : FontsRegistered) :
    List DocTable → List StoryElem → List StoryElem
  | [], story => story
  | t :: ts, story => tablesLoopAcc fonts ts (story ++ tableElems fonts t)

/-- The full story handed to `pdf_doc.build` (paragraph loop, then table
loop). -/
def buildStory (fonts : FontsRegistered) (doc : DocModel) : List StoryElem :=
  tablesLoopAcc fonts doc.tables
    (parasLoopAcc fonts doc.paragraphs 0 doc.paragraphs [])

/-! ## Helper lemmas about blank paragraphs -/

lemma pyBlank_append (s t : String) :
    pyBlank (s ++ t) = (pyBlank s && pyBlank t) := by
  simp [pyBlank, String.toList, String.data_append, List.all_append]

lemma pyBlank_catTexts (rs : List RunLike) :
    pyBlank (catTexts rs) = rs.all fun r => pyBlank r.text := by
  induction rs with
  | nil => rfl
  | cons r rest ih => simp [catTexts, pyBlank_append, ih]

/-- A paragraph with a non-blank run has non-blank text (its text being the
concatenation of its runs' texts). -/
lemma text_not_blank_of_runs (p : DocParagraph) (r0 : RunLike) (rest : List RunLike)
    (h : runs_with_text p = r0 :: rest) : pyBlank p.text = false := by
  rcases hb : pyBlank p.text with _ | _
  · rfl
  · exfalso
    have hall : (p.runs.all fun r => pyBlank r.text) = true := by
      have : pyBlank (catTexts p.runs) = true := hb
      rwa [pyBlank_catTexts] at this
    have hnil : runs_with_text p = [] := by
      rw [runs_with_text, List.filter_eq_nil_iff]
      intro r hr
      have := (List.all_eq_true.mp hall) r hr
      simp [this]
    rw [h] at hnil
    cases hnil

/-! ## Claim C2 -/

/-- Claim C2: a paragraph with at least one non-blank run is uniform exactly
when every non-blank run matches the first non-blank run's bold/italic/
underline flags (sizes and colors are not compared); a uniform paragraph emits
exactly ONE styled block carrying the whole paragraph text, the first run's
formatting and color, and effective size `max(first run size, base size)`,
where the base size comes from the style name (Heading 1 → 18, Heading 2 → 16,
Heading 3 → 14, Title → 20, else 12). -/
theorem C2_uniform_paragraph (fonts : FontsRegistered) (priorParas : List DocParagraph)
    (p : DocParagraph) (r0 : RunLike) (rest : List RunLike)
    (hr : runs_with_text p = r0 :: rest) :
    (uniformFormatting (r0 :: rest) = true ↔
      ∀ r ∈ rest,
        (get_text_formatting r).bold = (get_text_formatting r0).bold ∧
        (get_text_formatting r).italic = (get_text_formatting r0).italic ∧
        (get_text_formatting r).underline = (get_text_formatting r0).underline)
    ∧ (uniformFormatting (r0 :: rest) = true →
      paraElems fonts priorParas p =
        [StoryElem.paragraphBlock
          (if (get_text_formatting r0).underline then
            "<u>" ++ (listPrefixOf priorParas (p.style.getD "Normal") ++ p.text) ++ "</u>"
           else listPrefixOf priorParas (p.style.getD "Normal") ++ p.text)
          (get_best_font fonts p.text (get_text_formatting r0).bold
            (get_text_formatting r0).italic)
          (max (get_text_formatting r0).size (base_size_of (p.style.getD "Normal")))
          (get_paragraph_alignment p)
          (hex_to_reportlab_color (get_text_formatting r0).color)
          (if pyIn "List" (p.style.getD "Normal") then 3 else 6)
          (if pyIn "List" (p.style.getD "Normal") then 20 else 0)
          (max (get_text_formatting r0).size (base_size_of (p.style.getD "Normal"))
            * (6 / 5))])
    ∧ base_size_of "Heading 1" = 18 ∧ base_size_of "Heading 2" = 16
    ∧ base_size_of "Heading 3" = 14 ∧ base_size_of "Title" = 20
    ∧ base_size_of "Normal" = 12 := by
  have hb := text_not_blank_of_runs p r0 rest hr
  refine ⟨?_, ?_, by decide, by decide, by decide, by decide, by decide⟩
  · simp [uniformFormatting, List.all_eq_true, Bool.and_eq_true, and_assoc]
  · intro hu
    rw [paraElems]
    simp only [hb, Bool.false_eq_true, if_false, hr, hu, if_true]

/-- Concrete registration state for witnesses: everything registered. -/
def fonts0 : FontsRegistered := ⟨true, true, true⟩

/-- A bold run (direct `bold` attribute `True`, no `font` attribute). -/
def wrA : RunLike :=
  { text := "Hello ", bold := some (some true), italic := none, underline := none,
    font := none }

/-- A bold run whose nested font reports a different size (14pt) and no color:
same flags as `wrA`, different size. -/
def wrB : RunLike :=
  { text := "World", bold := some (some true), italic := none, underline := none,
    font := some (some
      { bold := none, italic := none, underline := none,
        size := some (some { truthy := true, pt := some 14 }),
        color := some none }) }

/-- A plain run with no formatting attributes. -/
def wrC : RunLike :=
  { text := "World", bold := none, italic := none, underline := none, font := none }

/-- Uniform two-run paragraph: both runs bold, sizes differ (12 vs 14). -/
def wpUniform : DocParagraph := { runs := [wrA, wrB], style := some "Normal", alignment := none }

/-- Witness for C2: the uniform paragraph with two bold runs of different
sizes emits exactly one styled block. -/
theorem C2_uniform_paragraph_witness :
    uniformFormatting (wrA :: [wrB]) = true ∧
    paraElems fonts0 [] wpUniform =
      [StoryElem.paragraphBlock
        (if (get_text_formatting wrA).underline then
          "<u>" ++ (listPrefixOf [] (wpUniform.style.getD "Normal") ++ wpUniform.text) ++ "</u>"
         else listPrefixOf [] (wpUniform.style.getD "Normal") ++ wpUniform.text)
        (get_best_font fonts0 wpUniform.text (get_text_formatting wrA).bold
          (get_text_formatting wrA).italic)
        (max (get_text_formatting wrA).size (base_size_of (wpUniform.style.getD "Normal")))
        (get_paragraph_alignment wpUniform)
        (hex_to_reportlab_color (get_text_formatting wrA).color)
        (if pyIn "List" (wpUniform.style.getD "Normal") then 3 else 6)
        (if pyIn "List" (wpUniform.style.getD "Normal") then 20 else 0)
        (max (get_text_formatting wrA).size (base_size_of (wpUniform.style.getD "Normal"))
          * (6 / 5))] :=
  ⟨by decide,
   (C2_uniform_paragraph fonts0 [] wpUniform wrA [wrB] (by decide)).2.1 (by decide)⟩

/-! ## Claim C3 -/

/-- Mixed-formatting list paragraph: one bold run, one plain run, style
`List Bullet`. -/
def wpMixedList : DocParagraph :=
  { runs := [wrA, wrC], style := some "List Bullet", alignment := none }

/-- Mixed-formatting plain paragraph (not a list item). -/
def wpMixedPlain : DocParagraph :=
  { runs := [wrA, wrC], style := some "Normal", alignment := none }

/-- Counterexample to claim C3 as stated: `wpMixedList` is a mixed-formatting
paragraph (two non-blank runs, only one bold), yet NO spacer element follows
it — the source appends the spacer on the mixed path only when the paragraph
is not a list item. -/
theorem C3_counterexample :
    uniformFormatting (runs_with_text wpMixedList) = false
    ∧ (runs_with_text wpMixedList).length = 2
    ∧ paraElems fonts0 [] wpMixedList ≠ []
    ∧ StoryElem.spacer 1 6 ∉ paraElems fonts0 [] wpMixedList := by
  refine ⟨by decide, by decide, ?_, ?_⟩
  · intro h
    have h2 : (paraElems fonts0 [] wpMixedList).length = 0 := by rw [h]; rfl
    rw [show paraElems fonts0 [] wpMixedList =
      [mixedRunElem fonts0 (base_size_of "List Bullet") TA_LEFT true "● " wrA,
       mixedRunElem fonts0 (base_size_of "List Bullet") TA_LEFT true "" wrC] from rfl] at h2
    cases h2
  · intro hmem
    rw [show paraElems fonts0 [] wpMixedList =
      [mixedRunElem fonts0 (base_size_of "List Bullet") TA_LEFT true "● " wrA,
       mixedRunElem fonts0 (base_size_of "List Bullet") TA_LEFT true "" wrC] from rfl] at hmem
    rcases List.mem_cons.mp hmem with h | h
    · cases h
    · rcases List.mem_cons.mp h with h2 | h2
      · cases h2
      · cases h2

/-- Claim C3 as amended: a mixed-formatting paragraph emits one styled block
per non-blank run, each independently formatted, with the list prefix
prepended only to the first emitted run; it is followed by a spacer exactly
when the paragraph is NOT a list item (the source skips the spacer for mixed
list items), and the uniform path never emits a spacer. -/
theorem C3_mixed_amended (fonts : FontsRegistered) (priorParas : List DocParagraph)
    (p : DocParagraph) (r0 : RunLike) (rest : List RunLike)
    (hr : runs_with_text p = r0 :: rest)
    (hu : uniformFormatting (r0 :: rest) = false) :
    (paraElems fonts priorParas p =
      ([mixedRunElem fonts (base_size_of (p.style.getD "Normal"))
          (get_paragraph_alignment p) (pyIn "List" (p.style.getD "Normal"))
          (if pyIn "List" (p.style.getD "Normal") then
            listPrefixOf priorParas (p.style.getD "Normal") else "") r0]
        ++ rest.map (mixedRunElem fonts (base_size_of (p.style.getD "Normal"))
            (get_paragraph_alignment p) (pyIn "List" (p.style.getD "Normal")) ""))
        ++ (if !(pyIn "List" (p.style.getD "Normal")) then [StoryElem.spacer 1 6] else []))
    ∧ (∀ (q : DocParagraph) (prior : List DocParagraph),
        uniformFormatting (runs_with_text q) = true →
        StoryElem.spacer 1 6 ∉ paraElems fonts prior q) := by
  constructor
  · have hb := text_not_blank_of_runs p r0 rest hr
    rw [paraElems]
    simp only [hb, Bool.false_eq_true, if_false, hr, hu]
  · intro q prior huq
    rw [paraElems]
    by_cases hbq : pyBlank q.text = true
    · simp [hbq]
    · simp only [Bool.not_eq_true] at hbq
      simp only [hbq, Bool.false_eq_true, if_false]
      cases hq : runs_with_text q with
      | nil => simp
      | cons q0 qrest =>
        rw [hq] at huq
        simp only [huq, if_true]
        intro hmem
        rcases List.mem_singleton.mp hmem with h
        cases h

/-- Witness for C3 (amended): the mixed non-list paragraph `wpMixedPlain`
emits one block per run followed by a spacer. -/
theorem C3_mixed_amended_witness :
    paraElems fonts0 [] wpMixedPlain =
      ([mixedRunElem fonts0 (base_size_of (wpMixedPlain.style.getD "Normal"))
          (get_paragraph_alignment wpMixedPlain)
          (pyIn "List" (wpMixedPlain.style.getD "Normal"))
          (if pyIn "List" (wpMixedPlain.style.getD "Normal") then
            listPrefixOf [] (wpMixedPlain.style.getD "Normal") else "") wrA]
        ++ [wrC].map (mixedRunElem fonts0 (base_size_of (wpMixedPlain.style.getD "Normal"))
            (get_paragraph_alignment wpMixedPlain)
            (pyIn "List" (wpMixedPlain.style.getD "Normal")) ""))
        ++ (if !(pyIn "List" (wpMixedPlain.style.getD "Normal")) then
            [StoryElem.spacer 1 6] else []) :=
  (C3_mixed_amended fonts0 [] wpMixedPlain wrA [wrC] (by decide) (by decide)).1

/-! ## Claim C6 -/

/-- The text of a styled paragraph block (empty for other story elements). -/
def StoryElem.blockText : StoryElem → String
  | .paragraphBlock t _ _ _ _ _ _ _ => t
  | _ => ""

/-- Claim C6: a paragraph whose style name marks it as a numbered list item
(`'List'` and `'Number'` substrings, and not a bullet style) gets the prefix
`"N. "` with `N` one plus the number of prior paragraphs whose style name
contains `'List Number'` — a single flat counter over `doc.paragraphs[:idx]`,
not a per-nesting-level counter; the first emitted block's text starts with
that prefix (stated for a first run without underline, whose text is not
wrapped in decoration tags). -/
theorem C6_list_numbering (fonts : FontsRegistered) (priorParas : List DocParagraph)
    (p : DocParagraph) (r0 : RunLike) (rest : List RunLike)
    (hr : runs_with_text p = r0 :: rest)
    (hL : pyIn "List" (p.style.getD "Normal") = true)
    (hB : pyIn "Bullet" (p.style.getD "Normal") = false)
    (hN : pyIn "Number" (p.style.getD "Normal") = true) :
    listPrefixOf priorParas (p.style.getD "Normal") =
      toString ((priorParas.filter fun q =>
        pyIn "List Number" (q.style.getD "")).length + 1) ++ ". "
    ∧ ((get_text_formatting r0).underline = false →
        ∃ tl, ((paraElems fonts priorParas p).headD (StoryElem.spacer 0 0)).blockText =
          (toString ((priorParas.filter fun q =>
            pyIn "List Number" (q.style.getD "")).length + 1) ++ ". ") ++ tl) := by
  have hpre : listPrefixOf priorParas (p.style.getD "Normal") =
      toString ((priorParas.filter fun q =>
        pyIn "List Number" (q.style.getD "")).length + 1) ++ ". " := by
    rw [listPrefixOf]
    simp only [hL, hB, hN, if_true, Bool.false_eq_true, if_false]
  refine ⟨hpre, ?_⟩
  intro hund
  have hb := text_not_blank_of_runs p r0 rest hr
  rw [paraElems]
  simp only [hb, Bool.false_eq_true, if_false, hr]
  cases hu : uniformFormatting (r0 :: rest) with
  | true =>
    simp only [if_true, hund, Bool.false_eq_true, if_false, List.headD_cons]
    exact ⟨p.text, by rw [StoryElem.blockText, hpre, String.append_assoc]⟩
  | false =>
    simp only [Bool.false_eq_true, if_false, List.cons_append, List.headD_cons]
    refine ⟨r0.text, ?_⟩
    rw [mixedRunElem]
    simp only [hund, Bool.false_eq_true, if_false, hL, if_true]
    rw [StoryElem.blockText, hpre, String.append_assoc]

/-- A blank paragraph styled `List Number` (blank paragraphs still advance the
flat counter). -/
def wpBlankNumber : DocParagraph :=
  { runs := [], style := some "List Number", alignment := none }

/-- A one-run paragraph styled `List Number`. -/
def wpNumber : DocParagraph :=
  { runs := [wrC], style := some "List Number", alignment := none }

/-- Witness for C6: with one prior `List Number` paragraph (a blank one), the
prefix is `"2. "`. -/
theorem C6_list_numbering_witness :
    listPrefixOf [wpBlankNumber] (wpNumber.style.getD "Normal") =
      toString (([wpBlankNumber].filter fun q =>
        pyIn "List Number" (q.style.getD "")).length + 1) ++ ". "
    ∧ listPrefixOf [wpBlankNumber] (wpNumber.style.getD "Normal") = "2. " :=
  ⟨(C6_list_numbering fonts0 [wpBlankNumber] wpNumber wrC [] (by decide) (by decide)
      (by decide) (by decide)).1,
   by decide⟩

/-! ## Claim C7 -/

/-- Declarative form of the paragraph loop: elements of paragraph `i` (with
prior slice `allParas.take i`), in source order. -/
def paraPass (fonts : FontsRegistered) (allParas : List DocParagraph) :
    Nat → List DocParagraph → List StoryElem
  | _, [] => []
  | i, p :: rest =>
    paraElems fonts (allParas.take i) p ++ paraPass fonts allParas (i + 1) rest

/-- Declarative form of the table loop: elements of each table, in source
order. -/
def tablePass (fonts : FontsRegistered) : List DocTable → List StoryElem
  | [] => []
  | t :: ts => tableElems fonts t ++ tablePass fonts ts

lemma parasLoopAcc_eq (fonts : FontsRegistered) (allParas : List DocParagraph)
    (ps : List DocParagraph) : ∀ (i : Nat) (story : List StoryElem),
    parasLoopAcc fonts allParas i ps story = story ++ paraPass fonts allParas i ps := by
  induction ps with
  | nil => intro i story; simp [parasLoopAcc, paraPass]
  | cons p rest ih =>
    intro i story
    rw [parasLoopAcc, paraPass, ih (i + 1), List.append_assoc]

lemma tablesLoopAcc_eq (fonts : FontsRegistered) (ts : List DocTable) :
    ∀ story : List StoryElem,
    tablesLoopAcc fonts ts story = story ++ tablePass fonts ts := by
  induction ts with
  | nil => intro story; simp [tablesLoopAcc, tablePass]
  | cons t rest ih =>
    intro story
    rw [tablesLoopAcc, tablePass, ih, List.append_assoc]

/-- Claim C7: the story produced by the two sequential loops is exactly the
per-paragraph elements in source paragraph order followed by the per-table
elements in source table order — every table block comes after all paragraph
blocks regardless of the table's position in reading order. -/
theorem C7_story_order (fonts : FontsRegistered) (doc : DocModel) :
    buildStory fonts doc =
      paraPass fonts doc.paragraphs 0 doc.paragraphs ++ tablePass fonts doc.tables := by
  rw [buildStory, tablesLoopAcc_eq, parasLoopAcc_eq, List.nil_append]

/-! ## Claim C8 -/

lemma getD_map_cellContent (l : List (List TableCell)) :
    ∀ i : Nat, (((l.map fun row => row.map cellContent).getD i []).length =
      (l.getD i []).length) := by
  induction l with
  | nil => intro i; simp
  | cons r rs ih =>
    intro i
    cases i with
    | zero => simp
    | succ j => simpa using ih j

/-- Claim C8: a table with at least one row yields a table block whose grid
has exactly one row per source row and one cell per source cell, followed by a
spacer; the header commands (background highlight and bold font on the first
row) are present exactly when the table has more than one row. -/
theorem C8_table_shape (fonts : FontsRegistered) (t : DocTable)
    (h : t.rows ≠ []) :
    tableElems fonts t =
      [StoryElem.tableBlock (t.rows.map fun row => row.map cellContent)
        (tableStyleCmds fonts t.rows.length),
       StoryElem.spacer 1 12]
    ∧ (t.rows.map fun row => row.map cellContent).length = t.rows.length
    ∧ (∀ i : Nat, ((t.rows.map fun row => row.map cellContent).getD i []).length =
        (t.rows.getD i []).length)
    ∧ (TableCmd.headerBackground lightgreyColor ∈ tableStyleCmds fonts t.rows.length ↔
        1 < t.rows.length)
    ∧ (TableCmd.headerFontName (if fonts.gurmukhi_bold then "NotoSansGurmukhi-Bold"
        else "Helvetica-Bold") ∈ tableStyleCmds fonts t.rows.length ↔
        1 < t.rows.length) := by
  refine ⟨?_, by simp, getD_map_cellContent t.rows, ?_, ?_⟩
  · cases hrows : t.rows with
    | nil => exact absurd hrows h
    | cons r rs =>
      rw [tableElems]
      simp [hrows]
  · rw [tableStyleCmds]
    by_cases hn : 1 < t.rows.length
    · simp [hn]
    · simp [hn]
  · rw [tableStyleCmds]
    by_cases hn : 1 < t.rows.length
    · simp [hn]
    · simp [hn]

/-- A 2-row, 3-column table whose cells are empty. -/
def t23 : DocTable :=
  { rows := [[⟨[]⟩, ⟨[]⟩, ⟨[]⟩], [⟨[]⟩, ⟨[]⟩, ⟨[]⟩]] }

/-- Witness for C8 at the spec's 2x3 example: two grid rows of three cells
each. -/
theorem C8_table_shape_witness :
    tableElems fonts0 t23 =
      [StoryElem.tableBlock (t23.rows.map fun row => row.map cellContent)
        (tableStyleCmds fonts0 t23.rows.length),
       StoryElem.spacer 1 12]
    ∧ ((t23.rows.map fun row => row.map cellContent).getD 0 []).length = 3
    ∧ ((t23.rows.map fun row => row.map cellContent).getD 1 []).length = 3
    ∧ (t23.rows.map fun row => row.map cellContent).length = 2 :=
  ⟨(C8_table_shape fonts0 t23 (by decide)).1, by decide, by decide, by decide⟩

/-! ## Claim C9: control flow of `convert_docx_to_pdf` (app.py 193-501)

The `try` block writes the upload to a temporary `.docx` file, opens it with
the external reader (`Document(...)`, which may raise on an unreadable file),
builds the story, calls the external renderer (`pdf_doc.build(story)`, which
may raise), then deletes the temporary file with `os.unlink` and returns the
PDF bytes.  The `except` block shows two `st.error` messages (the exception
string and a traceback) and returns `None`; it performs no file deletion.  The
two external-library outcomes are explicit parameters. -/

inductive ReadOutcome
  | ok (doc : DocModel)
  | raiseErr (msg : String)
deriving DecidableEq, Repr

structure PdfEnv where
  readOutcome : ReadOutcome
  buildRaises : Option String
deriving DecidableEq, Repr

/-- Observable outcome of one conversion call: the returned value (`none`
models Python's `None`), the error messages surfaced via `st.error`, and
whether `os.unlink` ran on the temporary input file before returning. -/
structure ConvOutcome where
  pdf : Option (List StoryElem)
  errorsShown : List String
  tempDocxDeleted : Bool
deriving DecidableEq, Repr

def convert_docx_to_pdf (fonts : FontsRegistered) (env : PdfEnv) : ConvOutcome :=
  match env.readOutcome with
  | .raiseErr m =>
    { pdf := none,
      errorsShown := ["Conversion error: " ++ m, "Details: traceback"],
      tempDocxDeleted := false }
  | .ok doc =>
    match env.buildRaises with
    | some m =>
      { pdf := none,
        errorsShown := ["Conversion error: " ++ m, "Details: traceback"],
        tempDocxDeleted := false }
    | none =>
      { pdf := some (buildStory fonts doc),
        errorsShown := [],
        tempDocxDeleted := true }

/-- An environment where the document reader raises (unreadable document). -/
def envBadDocx : PdfEnv := { readOutcome := .raiseErr "bad docx", buildRaises := none }

/-- Counterexample to claim C9 as stated: on an unreadable document the
conversion aborts, surfaces error messages and returns no PDF bytes — but the
temporary input file is NOT deleted before returning (`os.unlink` sits on the
success path only). -/
theorem C9_counterexample :
    (convert_docx_to_pdf fonts0 envBadDocx).pdf = none
    ∧ (convert_docx_to_pdf fonts0 envBadDocx).errorsShown ≠ []
    ∧ (convert_docx_to_pdf fonts0 envBadDocx).tempDocxDeleted = false := by
  refine ⟨rfl, ?_, rfl⟩
  intro h
  cases h

/-- Claim C9 as amended: on a structural failure (reader raise or renderer
raise) the conversion aborts, surfaces human-readable error messages, and
returns no PDF bytes, but the temporary input document file is NOT deleted
before returning; it is deleted only when the conversion succeeds. -/
theorem C9_failure_amended (fonts : FontsRegistered) (env : PdfEnv) :
    (((∃ m, env.readOutcome = ReadOutcome.raiseErr m) ∨
        (∃ m, env.buildRaises = some m)) →
      (convert_docx_to_pdf fonts env).pdf = none ∧
      (convert_docx_to_pdf fonts env).errorsShown ≠ [] ∧
      (convert_docx_to_pdf fonts env).tempDocxDeleted = false)
    ∧ ((convert_docx_to_pdf fonts env).pdf ≠ none →
        (convert_docx_to_pdf fonts env).tempDocxDeleted = true) := by
  rcases env with ⟨ro, br⟩
  cases ro with
  | raiseErr m =>
    constructor
    · intro _
      refine ⟨rfl, ?_, rfl⟩
      intro h
      cases h
    · intro h
      exact absurd rfl h
  | ok doc =>
    cases br with
    | some m =>
      constructor
      · intro _
        refine ⟨rfl, ?_, rfl⟩
        intro h
        cases h
      · intro h
        exact absurd rfl h
    | none =>
      refine ⟨?_, fun _ => rfl⟩
      rintro (⟨m, hm⟩ | ⟨m, hm⟩) <;> cases hm

/-- Witness for C9 (amended) at the unreadable-document environment. -/
theorem C9_failure_amended_witness :
    (convert_docx_to_pdf fonts0 envBadDocx).pdf = none ∧
    (convert_docx_to_pdf fonts0 envBadDocx).errorsShown ≠ [] ∧
    (convert_docx_to_pdf fonts0 envBadDocx).tempDocxDeleted = false :=
  (C9_failure_amended fonts0 envBadDocx).1 (Or.inl ⟨"bad docx", rfl⟩)
